import Mathlib

/-!
Verification development for the tg-mirror backend (`app.py`).

Strings are modelled as lists of characters (`Str`); Python string
primitives (`strip`, `lower`, `replace`, slicing) are embedded as
executable functions on `Str`.  Stateful code is embedded as pure
functions over explicit state records; network and clock effects are
passed in as oracle parameters.
-/

set_option maxRecDepth 4000

/-- Character strings, modelled as lists of characters (Python `str`). -/
abbrev Str := List Char

/-- Python `str.strip()` whitespace set (ASCII). -/
def pyIsSpace (c : Char) : Bool :=
  c = ' ' || c = '\t' || c = '\n' || c = '\r' || c = '\x0b' || c = '\x0c'

/-- Python `str.lower()` (ASCII case folding, as used for session names). -/
def lowerStr (s : Str) : Str := s.map Char.toLower

/-- Leading-whitespace removal, `str.lstrip()`. -/
def trimLeft (s : Str) : Str := s.dropWhile pyIsSpace

/-- Trailing-whitespace removal, `str.rstrip()`. -/
def trimRight (s : Str) : Str := (s.reverse.dropWhile pyIsSpace).reverse

/-- Python `str.strip()`. -/
def pyStrip (s : Str) : Str := trimRight (trimLeft s)

/-- Fuel-driven scan for `replaceAll`; the fuel bounds the number of scan
steps, each of which consumes at least one character. -/
def replaceAllFuel (pat : Str) : Nat → Str → Str
  | _, [] => []
  | 0, s => s
  | fuel + 1, c :: rest =>
    if pat ≠ [] ∧ pat.isPrefixOf (c :: rest) then
      replaceAllFuel pat fuel ((c :: rest).drop pat.length)
    else
      c :: replaceAllFuel pat fuel rest

/-- Python `text.replace(pat, "")` for non-empty `pat`: remove all
left-to-right non-overlapping occurrences of `pat`. -/
def replaceAll (pat s : Str) : Str := replaceAllFuel pat s.length s

/-- `_norm_ch`: `s.strip().lstrip("@").strip()`. -/
def norm_ch (s : Str) : Str := pyStrip ((pyStrip s).dropWhile (· = '@'))

/-- The literal `".session"` suffix. -/
def dotSession : Str := ".session".data

/-- `_norm_session_name`: strip, then drop a trailing `".session"`. -/
def norm_session_name (s : Str) : Str :=
  let t := pyStrip s
  if t = [] then []
  else if dotSession.isSuffixOf t then t.take (t.length - 8) else t

/-- The caption separator `SEPARATOR` from the source. -/
def SEPARATOR : Str := "\n\n--------------------------------\n".data

/-- `_apply_textdelete`: with empty `textdelete` return the text unchanged,
otherwise remove all occurrences and strip. -/
def apply_textdelete (text textdelete : Str) : Str :=
  if textdelete = [] then text else pyStrip (replaceAll textdelete text)

/-- `_append_caption`: strip the caption; if it is empty return the stripped
text; otherwise if the stripped text is empty return the caption; otherwise
join with `SEPARATOR` and strip. -/
def append_caption (cleanText caption : Str) : Str :=
  let cap := pyStrip caption
  if cap = [] then pyStrip cleanText
  else
    let base := pyStrip cleanText
    if base = [] then cap
    else pyStrip (base ++ SEPARATOR ++ cap)

/-- The full text pipeline of `_repost_single`:
`final_text = _append_caption(_apply_textdelete(text, textdelete), caption)`. -/
def finalText (text textdelete caption : Str) : Str :=
  append_caption (apply_textdelete text textdelete) caption

/-! ### SHA-1 (`hashlib.sha1`), UTF-8 encoding and hex digests -/

/-- UTF-8 encoding of a single character, as a list of byte values. -/
def utf8Char (c : Char) : List Nat :=
  let n := c.toNat
  if n < 128 then [n]
  else if n < 2048 then [192 + n / 64, 128 + n % 64]
  else if n < 65536 then [224 + n / 4096, 128 + (n / 64) % 64, 128 + n % 64]
  else [240 + n / 262144, 128 + (n / 4096) % 64, 128 + (n / 64) % 64, 128 + n % 64]

/-- UTF-8 encoding of a string (`str.encode("utf-8")`). -/
def utf8 (s : Str) : List Nat := (s.map utf8Char).join

/-- `2^32`, the word modulus of SHA-1. -/
def M32 : Nat := 4294967296

/-- 32-bit left rotation by `k`. -/
def rotl (k n : Nat) : Nat := (n * 2 ^ k) % M32 + n / 2 ^ (32 - k)

/-- Number of zero pad bytes for a SHA-1 message of byte length `len`. -/
def sha1PadZeros (len : Nat) : Nat := (119 - len % 64) % 64

/-- Big-endian 8-byte encoding of a natural number. -/
def be8 (n : Nat) : List Nat := (List.range 8).map (fun i => n / 2 ^ (8 * (7 - i)) % 256)

/-- SHA-1 message padding. -/
def sha1Pad (msg : List Nat) : List Nat :=
  msg ++ [128] ++ List.replicate (sha1PadZeros msg.length) 0 ++ be8 (8 * msg.length)

/-- Accumulator loop splitting a byte list into 64-byte chunks. -/
def toChunksAux : List Nat → List Nat → List (List Nat)
  | [], acc => if acc = [] then [] else [acc]
  | b :: rest, acc =>
    if acc.length = 63 then (acc ++ [b]) :: toChunksAux rest []
    else toChunksAux rest (acc ++ [b])

/-- Split a byte list into 64-byte chunks. -/
def toChunks (l : List Nat) : List (List Nat) := toChunksAux l []

/-- The sixteen 32-bit big-endian words of one 64-byte chunk. -/
def chunkWords (chunk : List Nat) : List Nat :=
  (List.range 16).map (fun i =>
    chunk.getD (4 * i) 0 * 16777216 + chunk.getD (4 * i + 1) 0 * 65536 +
    chunk.getD (4 * i + 2) 0 * 256 + chunk.getD (4 * i + 3) 0)

/-- Message-schedule expansion of the 16 chunk words to 80 words. -/
def sha1Expand (w : List Nat) : List Nat :=
  (List.range 64).foldl
    (fun acc _ =>
      let i := acc.length
      acc ++ [rotl 1 (Nat.xor (Nat.xor (acc.getD (i - 3) 0) (acc.getD (i - 8) 0))
                             (Nat.xor (acc.getD (i - 14) 0) (acc.getD (i - 16) 0)))])
    w

/-- Round function and constant of SHA-1 round `i`. -/
def sha1FK (i b c d : Nat) : Nat × Nat :=
  if i < 20 then (Nat.lor (Nat.land b c) (Nat.land (Nat.xor b (M32 - 1)) d), 1518500249)
  else if i < 40 then (Nat.xor (Nat.xor b c) d, 1859775393)
  else if i < 60 then (Nat.lor (Nat.lor (Nat.land b c) (Nat.land b d)) (Nat.land c d), 2400959708)
  else (Nat.xor (Nat.xor b c) d, 3395469782)

/-- SHA-1 five-word state. -/
abbrev H5 := Nat × Nat × Nat × Nat × Nat

/-- Process one 64-byte chunk into the running state. -/
def sha1Chunk (h : H5) (chunk : List Nat) : H5 :=
  let w := sha1Expand (chunkWords chunk)
  let s := (List.range 80).foldl
    (fun (st : H5) i =>
      let (a, b, c, d, e) := st
      let (f, k) := sha1FK i b c d
      let temp := (rotl 5 a + f + e + k + w.getD i 0) % M32
      (temp, a, rotl 30 b, c, d))
    (h.1, h.2.1, h.2.2.1, h.2.2.2.1, h.2.2.2.2)
  ((h.1 + s.1) % M32, (h.2.1 + s.2.1) % M32, (h.2.2.1 + s.2.2.1) % M32,
   (h.2.2.2.1 + s.2.2.2.1) % M32, (h.2.2.2.2 + s.2.2.2.2) % M32)

/-- SHA-1 digest of a byte list, as the five final state words. -/
def sha1Words (msg : List Nat) : H5 :=
  (toChunks (sha1Pad msg)).foldl sha1Chunk
    (1732584193, 4023233417, 2562383102, 271733878, 3285377520)

/-- One lowercase hex digit. -/
def toHexChar : Nat → Char
  | 0 => '0' | 1 => '1' | 2 => '2' | 3 => '3' | 4 => '4'
  | 5 => '5' | 6 => '6' | 7 => '7' | 8 => '8' | 9 => '9'
  | 10 => 'a' | 11 => 'b' | 12 => 'c' | 13 => 'd' | 14 => 'e'
  | 15 => 'f' | _ => 'x'

/-- Eight-hex-digit rendering of one 32-bit word. -/
def wordHex8 (w : Nat) : Str := (List.range 8).map (fun i => toHexChar (w / 16 ^ (7 - i) % 16))

/-- `hashlib.sha1(bytes).hexdigest()`: forty lowercase hex characters. -/
def sha1Hex (msg : List Nat) : Str :=
  let h := sha1Words msg
  wordHex8 h.1 ++ wordHex8 h.2.1 ++ wordHex8 h.2.2.1 ++ wordHex8 h.2.2.2.1 ++ wordHex8 h.2.2.2.2

/-- `_bot_key`: first 16 hex characters of the SHA-1 of the stripped token. -/
def bot_key (tok : Str) : Str := (sha1Hex (utf8 (pyStrip tok))).take 16

/-- `"user"` as a `Str`. -/
def userStr : Str := "user".data

/-- Python `x or "user"` for strings. -/
def orUser (s : Str) : Str := if s = [] then userStr else s

/-- The raw string hashed by `_job_id`. -/
def jobIdRawStr (poll post postBy postSess botToken : Str) : Str :=
  norm_ch poll ++ "|".data ++ norm_ch post ++ "|".data ++
  lowerStr (orUser postBy) ++ "|".data ++
  lowerStr (norm_session_name postSess) ++ "|".data ++
  (if botToken = [] then [] else bot_key botToken)

/-- `_job_id`: first 16 hex characters of the SHA-1 of the raw id string. -/
def job_id (poll post postBy postSess botToken : Str) : Str :=
  (sha1Hex (utf8 (jobIdRawStr poll post postBy postSess botToken))).take 16

/-! ### Data model -/

/-- A source message: id, optional album group id, text (`msg.message`). -/
structure Msg where
  id : Nat
  gid : Option Nat
  text : Str
deriving DecidableEq, Repr

/-- A job record (one mirror relation), fields as stored in `state.json`. -/
structure Job where
  jobIdF : Str
  pollChanel : Str
  postChanel : Str
  textdelete : Str
  caption : Str
  postBy : Str
  postSeasion : Str
  botToken : Str
  lastOkId : Nat
  lastError : Str
  pausedReason : Str
  createdTs : Str
  updatedTs : Str
deriving DecidableEq, Repr

/-- A discovered session: file stem, dense index, liveness, last error. -/
structure SessionS where
  name : Str
  index : Nat
  online : Bool
  lastError : Str
deriving DecidableEq, Repr

/-- A poller record: one per source channel. -/
structure Poller where
  pollSessionName : Str
  sessionIndex : Nat
  createdTs : Str
  lastError : Str
  lastFailoverTs : Option Str
deriving DecidableEq, Repr

/-- One recent-publish ring entry (`{link, poll, post, ts}`). -/
structure RItem where
  link : Str
  poll : Str
  post : Str
  ts : Str
deriving DecidableEq, Repr

/-- The persistent state: pollers, jobs and the two recent-publish maps,
all as insertion-ordered association lists (Python dicts). -/
structure StateS where
  pollers : List (Str × Poller)
  jobs : List (Str × Job)
  recentBySession : List (Str × List RItem)
  recentByBot : List (Str × List RItem)
deriving DecidableEq, Repr

/-- Outcome of one republish attempt: the returned boolean and the
`last_error` / `paused_reason` values the attempt left on the job. -/
structure RepostResult where
  ok : Bool
  lastError : Str
  pausedReason : Str
deriving DecidableEq, Repr

/-! ### Association-list helpers (Python dict semantics) -/

/-- Dict lookup. -/
def lookupA {α : Type} : List (Str × α) → Str → Option α
  | [], _ => none
  | (k', v') :: rest, k => if k' = k then some v' else lookupA rest k

/-- Dict assignment: update in place if the key exists, else append. -/
def setA {α : Type} : List (Str × α) → Str → α → List (Str × α)
  | [], k, v => [(k, v)]
  | (k', v') :: rest, k, v =>
    if k' = k then (k, v) :: rest else (k', v') :: setA rest k v

/-- Dict deletion (`pop`): remove the key, keeping the others in order. -/
def delA {α : Type} (m : List (Str × α)) (k : Str) : List (Str × α) :=
  m.filter (fun p => p.1 ≠ k)

/-! ### Sessions: display names, lookup, roles, least-loaded pick -/

/-- `_session_display_name`: the stem, or `session_{index+1}` if empty. -/
def displayName (sw : SessionS) : Str :=
  if sw.name = [] then "session_".data ++ Nat.toDigits 10 (sw.index + 1) else sw.name

/-- `_sess_key`: the session file name. -/
def sessKey (sw : SessionS) : Str := sw.name ++ dotSession

/-- `find_session_wrap_by_name`: case-insensitive match on stem, display
name, or full file name. -/
def findByName (sessions : List SessionS) (name : Str) : Option SessionS :=
  let key := lowerStr (norm_session_name name)
  if key = [] then none
  else sessions.find? (fun sw =>
    key = lowerStr sw.name || key = lowerStr (displayName sw) || key = lowerStr (sessKey sw))

/-- `_compute_roles_from_state`: lowercase poll- and post-role name lists. -/
def computeRoles (st : StateS) : List Str × List Str :=
  (st.pollers.filterMap (fun pr =>
      let sn := lowerStr (pyStrip pr.2.pollSessionName)
      if sn = [] then none else some sn),
   st.jobs.filterMap (fun pr =>
      if lowerStr (orUser pr.2.postBy) = userStr then
        let ps := lowerStr (pyStrip pr.2.postSeasion)
        if ps = [] then none else some ps
      else none))

/-- `_poll_load_counts`: pollers assigned to each session index. -/
def pollLoadCounts (st : StateS) (i : Nat) : Nat :=
  (st.pollers.filter (fun pr => pr.2.sessionIndex = i)).length

/-- The `10**9` sentinel of `_pick_poll_session_least_loaded`. -/
def BIGCOUNT : Nat := 1000000000

/-- Loop of `_pick_poll_session_least_loaded` over the online snapshot. -/
def pickGo (counts : Nat → Nat) (excl : List Str) :
    List SessionS → Option SessionS → Nat → Option SessionS
  | [], best, _ => best
  | sw :: rest, best, bestCount =>
    if lowerStr (displayName sw) ∈ excl then pickGo counts excl rest best bestCount
    else if counts sw.index < bestCount then pickGo counts excl rest (some sw) (counts sw.index)
    else pickGo counts excl rest best bestCount

/-- `_pick_poll_session_least_loaded`. -/
def pickLeastLoaded (counts : Nat → Nat) (excl : List Str)
    (sessions : List SessionS) : Option SessionS :=
  pickGo counts excl (sessions.filter (·.online)) none BIGCOUNT

/-- `_failover_poller_if_needed`: rebind the poller of `pollName` if its
bound session is dead or missing; `now` is the formatted timestamp. -/
def failoverPollerIfNeeded (sessions : List SessionS) (now : Str)
    (st : StateS) (pollName : Str) : StateS :=
  match lookupA st.pollers pollName with
  | none => st
  | some meta =>
    let psn := pyStrip meta.pollSessionName
    let swo := if psn = [] then none else findByName sessions psn
    if (swo.map (·.online)).getD false then st
    else
      let postS := (computeRoles st).2
      match pickLeastLoaded (pollLoadCounts st) postS sessions with
      | none =>
        let meta' := { meta with lastError := "poller has no available poll session".data }
        { st with pollers := setA st.pollers pollName meta' }
      | some dst =>
        let meta' := { meta with pollSessionName := displayName dst,
                                 sessionIndex := dst.index,
                                 lastError := ([] : Str), lastFailoverTs := some now }
        { st with pollers := setA st.pollers pollName meta' }

/-! ### Album handling and the poll pipeline -/

/-- One comparison step of Python `max(msgs, key=len(text))`: keep the
current best unless the new element is strictly longer (so the earliest
maximal element wins). -/
def pickLonger (best x : Msg) : Msg :=
  if best.text.length < x.text.length then x else best

/-- `max(msgs, key=len(text))` realised as a left fold of `pickLonger`. -/
def albumPrimary : List Msg → Option Msg
  | [] => none
  | m :: rest => some (rest.foldl pickLonger m)

/-- Stable insertion of a message into an id-sorted list. -/
def insertById (m : Msg) : List Msg → List Msg
  | [] => [m]
  | x :: xs => if m.id < x.id then m :: x :: xs else x :: insertById m xs

/-- Stable sort of album members by ascending id (`album.sort(key=id)`). -/
def sortMsgs (l : List Msg) : List Msg := l.foldr insertById []

/-- Stable insertion of a group into a gid-sorted group list. -/
def insertByGid (g : Nat × List Msg) : List (Nat × List Msg) → List (Nat × List Msg)
  | [] => [g]
  | x :: xs => if g.1 < x.1 then g :: x :: xs else x :: insertByGid g xs

/-- Sort the album groups by ascending group id (`sorted(groups.keys())`). -/
def sortGroups (l : List (Nat × List Msg)) : List (Nat × List Msg) := l.foldr insertByGid []

/-- Append a member to its group, preserving first-seen group order. -/
def addToGroup : List (Nat × List Msg) → Nat → Msg → List (Nat × List Msg)
  | [], g, m => [(g, [m])]
  | (g', ms) :: rest, g, m =>
    if g' = g then (g', ms ++ [m]) :: rest else (g', ms) :: addToGroup rest g m

/-- Partition a batch into album groups and singletons, in encounter
order; a missing or zero `grouped_id` means singleton. -/
def groupSplit (msgs : List Msg) : List (Nat × List Msg) × List Msg :=
  msgs.foldl
    (fun acc m =>
      match m.gid with
      | some g => if g ≠ 0 then (addToGroup acc.1 g m, acc.2) else (acc.1, acc.2 ++ [m])
      | none => (acc.1, acc.2 ++ [m]))
    ([], [])

/-- Batch collection of `_poll_one_channel`: messages with id above the
minimum cursor, in source (ascending) order, capped at `batchMax`. -/
def collectBatch (source : List Msg) (minCursor batchMax : Nat) : List Msg :=
  ((source.filter (fun m => decide (minCursor < m.id))).take batchMax)

/-- The unit processing order of `_poll_one_channel`: albums first in
ascending group-id order (members sorted by id), then singletons in
ascending id order.  Each unit is returned as its member list. -/
def processUnits (msgs : List Msg) : List (List Msg) :=
  let gs := groupSplit msgs
  (sortGroups gs.1).map (fun p => sortMsgs p.2) ++ (sortMsgs gs.2).map (fun m => [m])

/-- Minimum cursor over the jobs of a source (`0` when there are none). -/
def minCursorOf : List Job → Nat
  | [] => 0
  | j :: rest => rest.foldl (fun acc j' => min acc j'.lastOkId) j.lastOkId

/-- Cursor transition of `_process_message_for_jobs` for one job and one
message (or album representative) of id `mid`, given the repost outcome:
skip if not new, advance and clear errors on success, otherwise keep the
cursor and record the attempt's error fields. -/
def processEvent (job : Job) (mid : Nat) (r : RepostResult) : Job :=
  if mid ≤ job.lastOkId then job
  else if r.ok then { job with lastOkId := mid, lastError := [], pausedReason := [] }
  else { job with lastError := r.lastError, pausedReason := r.pausedReason }

/-- Cursor after a whole sequence of processed events. -/
def processTrace (job : Job) (events : List (Nat × RepostResult)) : Job :=
  events.foldl (fun j e => processEvent j e.1 e.2) job

/-- Album processing for one job: sort members by id, use the last
(highest-id) member as the representative `msg` and the longest-text
member as the sent primary; returns the updated job and the list of
texts handed to `_repost_single` (at most one). -/
def processAlbum (job : Job) (album : List Msg) (r : RepostResult) : Job × List Str :=
  let sorted := sortMsgs album
  match sorted.getLast? with
  | none => (job, [])
  | some rep =>
    if rep.id ≤ job.lastOkId then (job, [])
    else
      match albumPrimary sorted with
      | none => (job, [])
      | some prim => (processEvent job rep.id r, [prim.text])

/-! ### Republisher user-mode gate (`_repost_single`, user branch) -/

/-- Error string recorded when a post session is found but dead. -/
def dieMsg (sw : SessionS) : Str :=
  "POST session DIE: ".data ++ displayName sw ++ " (".data ++ sw.lastError ++ ")".data

/-- Result of the user-mode pre-send checks of `_repost_single`: either a
hard failure (function returns `False`, with the job's updated error
fields and whether an alert was emitted) or permission to send via the
bound post session. -/
inductive RepostGate where
  | hardFail (job : Job) (alerted : Bool)
  | proceed (sw : SessionS)
deriving DecidableEq, Repr

/-- The pre-send checks of `_repost_single` for a user-mode job
(`post_by` not `"bot"`): empty destination or missing `post_seasion`
fail; an unknown post session fails with `post_session_missing`; a found
but offline post session fails with `post_session_die`, alerting exactly
when `int(time.time()) % 30 == 0` (`timeMs` is wall-clock milliseconds).
No other session is ever considered. -/
def repostUserGate (sessions : List SessionS) (timeMs : Nat) (job : Job) : RepostGate :=
  if job.postChanel = [] then .hardFail job false
  else if job.postSeasion = [] then
    .hardFail { job with lastError := "USER post requires post_seasion".data } false
  else
    match findByName sessions job.postSeasion with
    | none =>
      .hardFail { job with lastError := "POST session not found: ".data ++ job.postSeasion,
                           pausedReason := "post_session_missing".data } false
    | some sw =>
      if sw.online then .proceed sw
      else
        .hardFail { job with lastError := dieMsg sw,
                             pausedReason := "post_session_die".data }
          (decide (timeMs / 1000 % 30 = 0))

/-! ### Recent-publish rings (`record_reup_session` / `record_reup_bot`) -/

/-- `arr.insert(0, item); del arr[10:]`. -/
def recordRing (item : RItem) (arr : List RItem) : List RItem := (item :: arr).take 10

/-- Prepend an item to the ring stored under `key` (creating it if absent). -/
def updateRecent (m : List (Str × List RItem)) (key : Str) (item : RItem) :
    List (Str × List RItem) :=
  setA m key (recordRing item ((lookupA m key).getD []))

/-- `record_reup_session`: prepend to the per-session-file ring. -/
def record_reup_session (st : StateS) (sw : SessionS)
    (pollName postNameNorm link now : Str) : StateS :=
  let item : RItem := { link := link, poll := norm_ch pollName, post := postNameNorm, ts := now }
  { st with recentBySession := updateRecent st.recentBySession (sessKey sw) item }

/-- `record_reup_bot`: prepend to the per-bot-fingerprint ring. -/
def record_reup_bot (st : StateS) (botToken pollName postNameNorm link now : Str) : StateS :=
  let item : RItem := { link := link, poll := norm_ch pollName, post := postNameNorm, ts := now }
  { st with recentByBot := updateRecent st.recentByBot (bot_key botToken) item }

/-! ### `/status` projection -/

/-- One entry of the `jobs` section of `/status`; the bot token itself is
not a field, only its fingerprint `bot_key`. -/
structure StatusJob where
  jobId : Str
  pollChanel : Str
  postChanel : Str
  postBy : Str
  postSeasion : Str
  botKeyF : Str
  lastOkId : Nat
  pausedReason : Str
  lastError : Str
  textdelete : Str
  caption : Str
deriving DecidableEq, Repr

/-- The `/status` rendering of one job. -/
def statusJobOut (jid : Str) (job : Job) : StatusJob :=
  { jobId := jid,
    pollChanel := '@' :: norm_ch job.pollChanel,
    postChanel := '@' :: norm_ch job.postChanel,
    postBy := job.postBy,
    postSeasion := job.postSeasion,
    botKeyF := if job.botToken = [] then [] else bot_key job.botToken,
    lastOkId := job.lastOkId,
    pausedReason := job.pausedReason,
    lastError := job.lastError,
    textdelete := job.textdelete,
    caption := job.caption }

/-- The token-relevant sections of the `/status` response: the `jobs`
list and the `bots` list (fingerprint keys with their recent rings). -/
def statusOut (st : StateS) : List StatusJob × List (Str × List RItem) :=
  (st.jobs.map (fun pr => statusJobOut pr.1 pr.2),
   st.recentByBot.map (fun pr => (pr.1, pr.2.take 10)))

/-! ### The `/add` handler -/

/-- The `/add` request body (`AddPayload` in the source); optional string
fields model Python `None`. -/
structure AddPayloadS where
  pollChanel : Str
  postChanel : Str
  textdelete : Str
  caption : Str
  del : Option Str
  seasion : Option Str
  pollSeasion : Option Str
  postBy : Option Str
  postSeasion : Option Str
  botToken : Option Str
deriving DecidableEq, Repr

/-- Environment of one `/add` call: the discovered sessions, the latest
message id of each channel as seen through the poll session, and the
formatted current time. -/
structure AddEnv where
  sessions : List SessionS
  latestId : Str → Nat
  now : Str

/-- Successful `/add` responses: the delete form and the upsert form. -/
inductive AddOk where
  | deleted (deletedJobs : Nat) (deletedPoller : Bool)
  | created (jid : Str) (baseline : Nat)
deriving DecidableEq, Repr

/-- `opt or ""` for optional strings. -/
def getS (o : Option Str) : Str := o.getD []

/-- Python `a or b or ""` on two optional strings. -/
def orFirst (a b : Option Str) : Str := if getS a ≠ [] then getS a else getS b

/-- Whether the request is the `delete:"all"` form. -/
def isDeleteAll (p : AddPayloadS) : Bool :=
  match p.del with
  | none => false
  | some d => d ≠ [] && lowerStr d = "all".data

/-- The `"bot"` literal. -/
def botStr : Str := "bot".data

/-- The normalised source channel of an `/add` request. -/
def pollNameOf (p : AddPayloadS) : Str := norm_ch p.pollChanel

/-- The normalised destination channel of an `/add` request. -/
def postNameOf (p : AddPayloadS) : Str := norm_ch p.postChanel

/-- The normalised post mode of an `/add` request (`"user"` or `"bot"`). -/
def postByOf (p : AddPayloadS) : Str :=
  let postBy0 := lowerStr (orUser (getS p.postBy))
  if postBy0 = userStr ∨ postBy0 = botStr then postBy0 else userStr

/-- The stripped bot token of an `/add` request (empty unless bot mode). -/
def botTokenOf (p : AddPayloadS) : Str :=
  if postByOf p = botStr then pyStrip (getS p.botToken) else []

/-- The normalised post session of an `/add` request (empty unless user mode). -/
def postSeasionOf (p : AddPayloadS) : Str :=
  if postByOf p = userStr then norm_session_name (getS p.postSeasion) else []

/-- The job id computed for a (non-delete) `/add` request, composing the
handler's normalisation with `_job_id`. -/
def jobIdOfPayload (p : AddPayloadS) : Str :=
  job_id (pollNameOf p) (postNameOf p) (postByOf p) (postSeasionOf p) (botTokenOf p)

/-- The existing-poller path of poll-session resolution: keep the bound
session if it is still online, otherwise run the failover controller and
re-read the poller's (possibly rebound) session name. -/
def pollStepOf (env : AddEnv) (st : StateS) (pollName plName : Str) : StateS × Str :=
  if ((findByName env.sessions plName).map (·.online)).getD false then (st, plName)
  else
    let stf := failoverPollerIfNeeded env.sessions env.now st pollName
    (stf, ((lookupA stf.pollers pollName).map (·.pollSessionName)).getD [])

/-- Poll-session resolution of the `/add` handler (may run the failover
controller, which mutates the stored pollers): returns the state as
mutated so far and either an error status or the chosen poll session's
display name and index. -/
def resolvePollSession (env : AddEnv) (st : StateS) (postRoles : List Str)
    (pollReq pollName : Str) : StateS × Except Nat (Str × Nat) :=
  if pollReq ≠ [] then
    if lowerStr pollReq ∈ postRoles then (st, .error 409)
    else
      match findByName env.sessions pollReq with
      | none => (st, .error 404)
      | some sw =>
        if sw.online then (st, .ok (displayName sw, sw.index)) else (st, .error 503)
  else
    match lookupA st.pollers pollName with
    | some pl =>
      if pl.pollSessionName ≠ [] then
        let step := pollStepOf env st pollName pl.pollSessionName
        match findByName env.sessions step.2 with
        | some s2 =>
          if s2.online then (step.1, .ok (step.2, s2.index)) else (step.1, .error 503)
        | none => (step.1, .error 503)
      else
        match pickLeastLoaded (pollLoadCounts st) postRoles env.sessions with
        | none => (st, .error 503)
        | some dst => (st, .ok (displayName dst, dst.index))
    | none =>
      match pickLeastLoaded (pollLoadCounts st) postRoles env.sessions with
      | none => (st, .error 503)
      | some dst => (st, .ok (displayName dst, dst.index))

/-- The tail of the `/add` handler after poll-session resolution:
post-role enforcement, poller upsert, the final liveness check of the
chosen poll session, and the job upsert (reusing the cursor of an
existing job with the same id, else baselining to the source's latest
id). -/
def addFinish (env : AddEnv) (st1 : StateS) (p : AddPayloadS)
    (roles : List Str × List Str) (pollSessionName : Str) (pollSessionIndex : Nat) :
    StateS × Except Nat AddOk :=
  let pollName := pollNameOf p
  let postName := postNameOf p
  let textdelete := pyStrip p.textdelete
  let caption := pyStrip p.caption
  let postBy := postByOf p
  let botToken := botTokenOf p
  let postSeasion := postSeasionOf p
  if postBy = userStr ∧ postSeasion = [] then (st1, .error 400)
  else if postBy = userStr ∧ lowerStr postSeasion ∈ roles.1 then (st1, .error 409)
  else if postBy = userStr ∧ (findByName env.sessions postSeasion).isNone then (st1, .error 404)
  else if ¬ postBy = userStr ∧ botToken = [] then (st1, .error 400)
  else
    let poller' :=
      match lookupA st1.pollers pollName with
      | none =>
        ({ pollSessionName := pollSessionName, sessionIndex := pollSessionIndex,
           createdTs := env.now, lastError := [], lastFailoverTs := none } : Poller)
      | some m =>
        { m with pollSessionName := pollSessionName, sessionIndex := pollSessionIndex }
    let st2 := { st1 with pollers := setA st1.pollers pollName poller' }
    match findByName env.sessions pollSessionName with
    | none => (st2, .error 503)
    | some sw2 =>
      if ¬ sw2.online then (st2, .error 503)
      else
        let baseline := env.latestId pollName
        let jid := jobIdOfPayload p
        let old := lookupA st2.jobs jid
        let newJob : Job :=
          { jobIdF := jid, pollChanel := pollName, postChanel := postName,
            textdelete := textdelete, caption := caption, postBy := postBy,
            postSeasion := postSeasion, botToken := botToken,
            lastOkId := match old with | some o => o.lastOkId | none => baseline,
            lastError := (old.map (fun o => o.lastError)).getD [],
            pausedReason := (old.map (fun o => o.pausedReason)).getD [],
            createdTs := (old.map (fun o => o.createdTs)).getD env.now,
            updatedTs := env.now }
        ({ st2 with jobs := setA st2.jobs jid newJob }, .ok (.created jid baseline))

/-- The `/add` handler.  Returns the state as mutated by the call (the
source mutates module state in place, so failed requests keep any
mutation made before the raise) together with the HTTP outcome: an error
status code or a success payload. -/
def addHandler (env : AddEnv) (st : StateS) (p : AddPayloadS) :
    StateS × Except Nat AddOk :=
  let pollName := pollNameOf p
  if pollName = [] then (st, .error 400)
  else if isDeleteAll p then
    let toDel := (st.jobs.filter (fun pr => norm_ch pr.2.pollChanel = pollName)).length
    let jobs' := st.jobs.filter (fun pr => ¬ norm_ch pr.2.pollChanel = pollName)
    let existedPoller := (lookupA st.pollers pollName).isSome
    ({ st with jobs := jobs', pollers := delA st.pollers pollName },
     .ok (.deleted toDel existedPoller))
  else
    let postName := postNameOf p
    if postName = [] then (st, .error 400)
    else
      let roles := computeRoles st
      let pollReq := norm_session_name (orFirst p.pollSeasion p.seasion)
      match resolvePollSession env st roles.2 pollReq pollName with
      | (st1, .error e) => (st1, .error e)
      | (st1, .ok (pollSessionName, pollSessionIndex)) =>
        addFinish env st1 p roles pollSessionName pollSessionIndex

/-- The normalised identity tuple of an `/add` request: the doubly
normalised source and destination channel, lowercased post mode,
lowercased session base name, and the bot-token fingerprint — exactly
the components `_job_id` hashes. -/
def normTuple (p : AddPayloadS) : Str × Str × Str × Str × Str :=
  (norm_ch (pollNameOf p), norm_ch (postNameOf p),
   lowerStr (orUser (postByOf p)), lowerStr (norm_session_name (postSeasionOf p)),
   if botTokenOf p = [] then [] else bot_key (botTokenOf p))

/-! ### Spec-side definitions for refinement comparisons -/

/-- The amended specification of the text pipeline: remove occurrences of
a non-empty `text_strip`; whitespace-trim the result and the caption; an
empty trimmed caption yields the trimmed result, an empty trimmed result
yields the trimmed caption, otherwise join them with `SEPARATOR`. -/
def finalTextSpec (text textdelete caption : Str) : Str :=
  let r := if textdelete = [] then text else pyStrip (replaceAll textdelete text)
  let rt := pyStrip r
  let ct := pyStrip caption
  if ct = [] then rt
  else if rt = [] then ct
  else rt ++ SEPARATOR ++ ct

/-- Lowercase hexadecimal digits. -/
def isHexLower (c : Char) : Bool :=
  ('0' ≤ c && c ≤ '9') || ('a' ≤ c && c ≤ 'f')

/-- Whether an HTTP outcome is a success. -/
def exceptIsOk {e a : Type} : Except e a → Bool
  | .ok _ => true
  | .error _ => false

/-- The raw `_job_id` hash input reassembled from a normalised tuple. -/
def rawOfTuple (t : Str × Str × Str × Str × Str) : Str :=
  t.1 ++ "|".data ++ t.2.1 ++ "|".data ++ t.2.2.1 ++ "|".data ++ t.2.2.2.1 ++ "|".data ++ t.2.2.2.2

/-- Two jobs that agree on everything except possibly the bot-token value,
with equal rendered fingerprints. -/
def jobTokenEquiv (j1 j2 : Job) : Prop :=
  j1.jobIdF = j2.jobIdF ∧ j1.pollChanel = j2.pollChanel ∧ j1.postChanel = j2.postChanel
  ∧ j1.textdelete = j2.textdelete ∧ j1.caption = j2.caption ∧ j1.postBy = j2.postBy
  ∧ j1.postSeasion = j2.postSeasion ∧ j1.lastOkId = j2.lastOkId
  ∧ j1.lastError = j2.lastError ∧ j1.pausedReason = j2.pausedReason
  ∧ j1.createdTs = j2.createdTs ∧ j1.updatedTs = j2.updatedTs
  ∧ (if j1.botToken = [] then [] else bot_key j1.botToken)
    = (if j2.botToken = [] then [] else bot_key j2.botToken)

/-! ### Concrete fixtures used by witnesses and counterexamples -/

/-- A user-mode job with cursor 0. -/
def jobW : Job :=
  ⟨"j1".data, "src".data, "dst".data, [], [], "user".data, "P".data, [], 0, [], [],
   "T0".data, "T0".data⟩

/-- A successful repost outcome. -/
def okR : RepostResult := ⟨true, [], []⟩

/-- A failed repost outcome. -/
def failR : RepostResult := ⟨false, "send failed".data, []⟩

/-- The three-message album of spec scenario 6 (ids 2001/2002/2003). -/
def albumA : List Msg :=
  [⟨2001, some 9, "".data⟩, ⟨2002, some 9, "longest".data⟩, ⟨2003, some 9, "x".data⟩]

/-- A two-message album whose texts have equal length. -/
def albumB : List Msg := [⟨10, some 1, "aa".data⟩, ⟨11, some 1, "bb".data⟩]

/-- A batch with two albums whose group-id order inverts their member-id order. -/
def batchC4 : List Msg :=
  [⟨1, some 5, "a".data⟩, ⟨2, some 5, "b".data⟩, ⟨3, some 3, "c".data⟩, ⟨4, some 3, "d".data⟩]

/-- Environment with one online session `X`. -/
def envC5 : AddEnv := ⟨[⟨"X".data, 0, true, []⟩], fun _ => 500, "T1".data⟩

/-- An `/add` request naming session `X` both as poll session and as post session. -/
def payloadC5 : AddPayloadS :=
  ⟨"src".data, "dst".data, [], [], none, none, some "X".data, some "user".data,
   some "X".data, none⟩

/-- The empty persistent state. -/
def emptyState : StateS := ⟨[], [], [], []⟩

/-- A dead session `D`. -/
def sessD : SessionS := ⟨"D".data, 0, false, "auth".data⟩

/-- A user-mode job bound to post session `D`. -/
def jobD : Job := { jobW with postSeasion := "D".data }

/-- Three sessions: `A` dead, `B` and `C` online. -/
def sessionsW : List SessionS :=
  [⟨"A".data, 0, false, []⟩, ⟨"B".data, 1, true, []⟩, ⟨"C".data, 2, true, []⟩]

/-- A poller bound to the dead session `A`. -/
def metaW : Poller := ⟨"A".data, 0, "T0".data, [], none⟩

/-- A state with one poller (bound to `A`) and no jobs. -/
def stW : StateS := ⟨[("src".data, metaW)], [], [], []⟩

/-- Environment with one online session `P`. -/
def envC9 : AddEnv := ⟨[⟨"P".data, 0, true, []⟩], fun _ => 700, "T3".data⟩

/-- A bot-mode `/add` request. -/
def payloadC9 : AddPayloadS :=
  ⟨"src".data, "dst".data, [], [], none, none, none, some "bot".data, none,
   some "123:tok".data⟩

/-- The same request with a differently written source channel (`" @src "`). -/
def payloadC9b : AddPayloadS := { payloadC9 with pollChanel := " @src ".data }

/-- An existing job whose cursor is 123. -/
def oldJobC9 : Job :=
  ⟨[], "src".data, "dst".data, [], [], "bot".data, [], "123:tok".data, 123, [], [],
   "T0".data, "T0".data⟩

/-- A state holding that job under its computed id. -/
def stC9 : StateS := ⟨[], [(jobIdOfPayload payloadC9, oldJobC9)], [], []⟩

/-- A bot-mode job with token `"abc"`. -/
def jobT1 : Job := { jobW with postBy := "bot".data, postSeasion := [], botToken := "abc".data }

/-- The same job with token `" abc"` (same fingerprint, different value). -/
def jobT2 : Job := { jobT1 with botToken := " abc".data }

/-! ### Helper lemmas: stripping -/

theorem dropWhile_head_false (p : Char → Bool) (l : Str) (a : Char) (t : Str)
    (h : l.dropWhile p = a :: t) : p a = false := by
  induction l with
  | nil => simp [List.dropWhile] at h
  | cons x xs ih =>
    rw [List.dropWhile_cons] at h
    by_cases hx : p x
    · rw [if_pos hx] at h
      exact ih h
    · rw [if_neg hx] at h
      cases h
      simpa using hx

theorem trimLeft_cons_of_false (a : Char) (l : Str) (ha : pyIsSpace a = false) :
    trimLeft (a :: l) = a :: l := by
  unfold trimLeft
  rw [List.dropWhile_cons_of_neg (by simp [ha])]

theorem trimRight_cons_of_false (a : Char) (l : Str) (ha : pyIsSpace a = false) :
    trimRight (a :: l) = a :: trimRight l := by
  unfold trimRight
  rw [List.reverse_cons, List.dropWhile_append]
  by_cases h : (l.reverse.dropWhile pyIsSpace).isEmpty
  · rw [if_pos h]
    rw [List.isEmpty_iff] at h
    rw [h, List.dropWhile_cons_of_neg (by simp [ha])]
    simp [List.dropWhile]
  · rw [if_neg h]
    simp

theorem trimRight_concat_of_false (l : Str) (a : Char) (ha : pyIsSpace a = false) :
    trimRight (l ++ [a]) = l ++ [a] := by
  unfold trimRight
  rw [List.reverse_append]
  simp only [List.reverse_cons, List.reverse_nil, List.nil_append, List.singleton_append]
  rw [List.dropWhile_cons_of_neg (by simp [ha])]
  simp

theorem trimRight_concat_false (s : Str) (a : Char) (t : Str)
    (h : trimRight s = t ++ [a]) : pyIsSpace a = false := by
  unfold trimRight at h
  have h2 : s.reverse.dropWhile pyIsSpace = a :: t.reverse := by
    have := congrArg List.reverse h
    simpa using this
  exact dropWhile_head_false _ _ _ _ h2

theorem pyStrip_cons_false (s : Str) (a : Char) (t : Str)
    (h : pyStrip s = a :: t) : pyIsSpace a = false := by
  unfold pyStrip at h
  cases htl : trimLeft s with
  | nil => rw [htl] at h; simp [trimRight, List.dropWhile] at h
  | cons b u =>
    have hb : pyIsSpace b = false := dropWhile_head_false _ _ _ _ htl
    rw [htl, trimRight_cons_of_false b u hb] at h
    cases h
    exact hb

theorem pyStrip_concat_false (s : Str) (a : Char) (t : Str)
    (h : pyStrip s = t ++ [a]) : pyIsSpace a = false :=
  trimRight_concat_false (trimLeft s) a t h

theorem pyStrip_of_ends (s : Str) (hs : s ≠ [])
    (hh : ∀ a t, s = a :: t → pyIsSpace a = false)
    (hl : ∀ t a, s = t ++ [a] → pyIsSpace a = false) :
    pyStrip s = s := by
  obtain ⟨a, t, rfl⟩ := List.exists_cons_of_ne_nil hs
  unfold pyStrip
  rw [trimLeft_cons_of_false a t (hh a t rfl)]
  rcases List.eq_nil_or_concat (a :: t) with h | ⟨init, b, hb⟩
  · simp at h
  · rw [List.concat_eq_append] at hb
    rw [hb]
    exact trimRight_concat_of_false init b (hl init b hb)

theorem pyStrip_idem (s : Str) : pyStrip (pyStrip s) = pyStrip s := by
  by_cases h : pyStrip s = []
  · rw [h]; rfl
  · exact pyStrip_of_ends _ h (fun a t ht => pyStrip_cons_false s a t ht)
      (fun t a ht => pyStrip_concat_false s a t ht)

theorem pyStrip_sep_noop (x y : Str) (hx : pyStrip x ≠ []) (hy : pyStrip y ≠ []) :
    pyStrip (pyStrip x ++ SEPARATOR ++ pyStrip y) = pyStrip x ++ SEPARATOR ++ pyStrip y := by
  apply pyStrip_of_ends
  · simp [hx]
  · intro a t ht
    obtain ⟨b, u, hb⟩ := List.exists_cons_of_ne_nil hx
    rw [hb, List.append_assoc, List.cons_append] at ht
    injection ht with h1 _
    rw [← h1]
    exact pyStrip_cons_false x b u hb
  · intro t a ht
    obtain ⟨init, b, hb⟩ := (List.eq_nil_or_concat (pyStrip y)).resolve_left hy
    rw [List.concat_eq_append] at hb
    have h1 : (pyStrip x ++ SEPARATOR ++ init) ++ [b] = t ++ [a] := by
      rw [← ht, hb]
      simp [List.append_assoc]
    have h2 := congrArg List.getLast? h1
    rw [List.getLast?_concat, List.getLast?_concat] at h2
    injection h2 with h3
    rw [← h3]
    exact pyStrip_concat_false y b init hb

/-- C3 (amended): for every message text, `text_strip` and `caption_append`,
the final text equals the spec pipeline in which the intermediate result is
whitespace-trimmed also when `text_strip` is empty and the caption is
whitespace-trimmed before the emptiness tests and the concatenation:
all occurrences of a non-empty `text_strip` are removed and the result
trimmed; if the trimmed caption is empty the final text is the trimmed
result; if the trimmed result is empty the final text is the trimmed
caption; otherwise the final text is the trimmed result, the exact
separator, and the trimmed caption. -/
theorem c3_text_pipeline (t d c : Str) : finalText t d c = finalTextSpec t d c := by
  unfold finalText finalTextSpec apply_textdelete append_caption
  by_cases hd : d = []
  · simp only [if_pos hd]
    by_cases hc : pyStrip c = []
    · simp [hc]
    · simp only [if_neg hc]
      by_cases hb : pyStrip t = []
      · simp [hb]
      · simp only [if_neg hb]
        exact pyStrip_sep_noop t c hb hc
  · simp only [if_neg hd]
    by_cases hc : pyStrip c = []
    · simp [hc]
    · simp only [if_neg hc]
      rw [pyStrip_idem (replaceAll d t)]
      by_cases hb : pyStrip (replaceAll d t) = []
      · simp [hb]
      · simp only [if_neg hb]
        have h2 : pyStrip (pyStrip (replaceAll d t)) ≠ [] := by
          rw [pyStrip_idem]; exact hb
        have := pyStrip_sep_noop (pyStrip (replaceAll d t)) c h2 hc
        rw [pyStrip_idem (replaceAll d t)] at this
        exact this

/-! ### Helper lemmas: album primary selection and sorting -/

theorem foldl_pickLonger_first (rest : List Msg) : ∀ best : Msg,
    ∃ l1 l2, best :: rest = l1 ++ (rest.foldl pickLonger best) :: l2
      ∧ (∀ x ∈ l1, x.text.length < (rest.foldl pickLonger best).text.length)
      ∧ (∀ x ∈ l2, x.text.length ≤ (rest.foldl pickLonger best).text.length) := by
  induction rest with
  | nil =>
    intro best
    exact ⟨[], [], rfl, by simp, by simp⟩
  | cons x rest ih =>
    intro best
    rw [List.foldl_cons]
    by_cases h : best.text.length < x.text.length
    · have hstep : pickLonger best x = x := by simp [pickLonger, h]
      rw [hstep]
      obtain ⟨l1, l2, heq, hlt, hle⟩ := ih x
      refine ⟨best :: l1, l2, ?_, ?_, hle⟩
      · rw [List.cons_append, ← heq]
      · intro y hy
        rcases List.mem_cons.mp hy with rfl | hy2
        · have hxr : x.text.length ≤ (List.foldl pickLonger x rest).text.length := by
            cases l1 with
            | nil =>
              simp only [List.nil_append] at heq
              injection heq with h1 _
              rw [← h1]
            | cons p l1x =>
              rw [List.cons_append] at heq
              injection heq with h1 _
              have hp := hlt p (by simp)
              rw [← h1] at hp
              exact le_of_lt hp
          exact lt_of_lt_of_le h hxr
        · exact hlt y hy2
    · have hstep : pickLonger best x = best := by simp [pickLonger, h]
      rw [hstep]
      obtain ⟨l1, l2, heq, hlt, hle⟩ := ih best
      cases l1 with
      | nil =>
        simp only [List.nil_append] at heq
        injection heq with h1 h2
        refine ⟨[], x :: rest, ?_, by simp, ?_⟩
        · simp only [List.nil_append]
          rw [← h1]
        · intro y hy
          rcases List.mem_cons.mp hy with rfl | hy2
          · rw [← h1]
            omega
          · rw [← h2] at hle
            exact hle y hy2
      | cons p l1x =>
        rw [List.cons_append] at heq
        injection heq with h1 h2
        refine ⟨best :: x :: l1x, l2, ?_, ?_, hle⟩
        · rw [List.cons_append, List.cons_append, ← h2]
        · intro y hy
          have hbest : best.text.length < (List.foldl pickLonger best rest).text.length := by
            have hp := hlt p (by simp)
            rw [← h1] at hp
            exact hp
          rcases List.mem_cons.mp hy with rfl | hy2
          · exact hbest
          · rcases List.mem_cons.mp hy2 with rfl | hy3
            · exact lt_of_le_of_lt (by omega) hbest
            · exact hlt y (by simp [hy3])

theorem albumPrimary_first_max (album : List Msg) (p : Msg)
    (h : albumPrimary album = some p) :
    ∃ l1 l2, album = l1 ++ p :: l2
      ∧ (∀ x ∈ l1, x.text.length < p.text.length)
      ∧ (∀ x ∈ l2, x.text.length ≤ p.text.length) := by
  cases album with
  | nil => simp [albumPrimary] at h
  | cons m rest =>
    simp only [albumPrimary, Option.some.injEq] at h
    obtain ⟨l1, l2, heq, hlt, hle⟩ := foldl_pickLonger_first rest m
    rw [h] at heq hlt hle
    exact ⟨l1, l2, heq, hlt, hle⟩

theorem sortMsgs_eq_of_sorted (l : List Msg)
    (h : l.Pairwise (fun a b => a.id < b.id)) : sortMsgs l = l := by
  induction l with
  | nil => rfl
  | cons a t ih =>
    have hpair := (List.pairwise_cons.mp h)
    have ht := ih hpair.2
    show insertById a (sortMsgs t) = a :: t
    rw [ht]
    cases t with
    | nil => rfl
    | cons b u =>
      have hab : a.id < b.id := hpair.1 b (by simp)
      unfold insertById
      rw [if_pos hab]

theorem getLast?_max_of_sorted (l : List Msg)
    (h : l.Pairwise (fun a b => a.id < b.id)) (rep : Msg)
    (hrep : l.getLast? = some rep) : ∀ m ∈ l, m.id ≤ rep.id := by
  induction l with
  | nil => simp at hrep
  | cons a t ih =>
    have hpair := List.pairwise_cons.mp h
    intro m hm
    cases t with
    | nil =>
      simp only [List.getLast?_singleton, Option.some.injEq] at hrep
      rcases List.mem_singleton.mp hm with rfl
      rw [hrep]
    | cons b u =>
      rw [List.getLast?_cons_cons] at hrep
      have hrepmem : rep ∈ b :: u := List.mem_of_getLast?_eq_some hrep
      rcases List.mem_cons.mp hm with rfl | hm'
      · exact le_of_lt (hpair.1 rep hrepmem)
      · exact ih hpair.2 hrep m hm'

/-! ### Helper lemmas: least-loaded pick -/

theorem pickGo_spec (counts : Nat → Nat) (excl : List Str) :
    ∀ (l : List SessionS) (best : Option SessionS) (bc : Nat),
    (∀ b, best = some b → counts b.index = bc) →
    (best = none → bc = BIGCOUNT) →
    (∀ b, best = some b → ∀ sw ∈ l, b.index < sw.index) →
    l.Pairwise (fun a b => a.index < b.index) →
    (∀ sw ∈ l, lowerStr (displayName sw) ∉ excl → counts sw.index < BIGCOUNT) →
    ((pickGo counts excl l best bc = best)
      ∨ (∃ b, pickGo counts excl l best bc = some b ∧ b ∈ l
          ∧ lowerStr (displayName b) ∉ excl ∧ counts b.index < bc))
    ∧ (∀ t ∈ l, lowerStr (displayName t) ∉ excl →
        ∃ b, pickGo counts excl l best bc = some b
          ∧ (counts b.index < counts t.index
             ∨ (counts b.index = counts t.index ∧ b.index ≤ t.index))) := by
  intro l
  induction l with
  | nil =>
    intro best bc h1 h2 h3 h4 h5
    refine ⟨Or.inl rfl, ?_⟩
    intro t ht
    simp at ht
  | cons sw rest ih =>
    intro best bc h1 h2 h3 h4 h5
    have hpair := List.pairwise_cons.mp h4
    simp only [pickGo]
    by_cases hex : lowerStr (displayName sw) ∈ excl
    · rw [if_pos hex]
      have IH := ih best bc h1 h2
        (fun b hb s hs => h3 b hb s (by simp [hs])) hpair.2
        (fun s hs hsx => h5 s (by simp [hs]) hsx)
      obtain ⟨IH1, IH2⟩ := IH
      refine ⟨?_, ?_⟩
      · rcases IH1 with he | ⟨b, hb, hbm, hbx, hbc⟩
        · exact Or.inl he
        · exact Or.inr ⟨b, hb, by simp [hbm], hbx, hbc⟩
      · intro t ht htx
        rcases List.mem_cons.mp ht with rfl | ht2
        · exact absurd hex htx
        · exact IH2 t ht2 htx
    · rw [if_neg hex]
      by_cases hlt : counts sw.index < bc
      · rw [if_pos hlt]
        have IH := ih (some sw) (counts sw.index)
          (fun b hb => by cases hb; rfl) (by intro hh; cases hh)
          (fun b hb s hs => by cases hb; exact hpair.1 s hs) hpair.2
          (fun s hs hsx => h5 s (by simp [hs]) hsx)
        obtain ⟨IH1, IH2⟩ := IH
        constructor
        · right
          rcases IH1 with he | ⟨b, hb, hbm, hbx, hbc⟩
          · exact ⟨sw, he, by simp, hex, hlt⟩
          · exact ⟨b, hb, by simp [hbm], hbx, lt_trans hbc hlt⟩
        · intro t ht htx
          rcases List.mem_cons.mp ht with rfl | ht2
          · rcases IH1 with he | ⟨b, hb, hbm, hbx, hbc⟩
            · exact ⟨t, he, Or.inr ⟨rfl, le_refl _⟩⟩
            · exact ⟨b, hb, Or.inl hbc⟩
          · exact IH2 t ht2 htx
      · rw [if_neg hlt]
        have hcswBIG : counts sw.index < BIGCOUNT := h5 sw (by simp) hex
        obtain ⟨b0, rfl⟩ : ∃ b0, best = some b0 := by
          cases best with
          | none =>
            exfalso
            have := h2 rfl
            omega
          | some b0 => exact ⟨b0, rfl⟩
        have hb0 : counts b0.index = bc := h1 b0 rfl
        have IH := ih (some b0) bc h1 (by intro hh; cases hh)
          (fun b hb s hs => by cases hb; exact h3 b0 rfl s (by simp [hs])) hpair.2
          (fun s hs hsx => h5 s (by simp [hs]) hsx)
        obtain ⟨IH1, IH2⟩ := IH
        constructor
        · rcases IH1 with he | ⟨b, hb, hbm, hbx, hbc⟩
          · exact Or.inl he
          · exact Or.inr ⟨b, hb, by simp [hbm], hbx, hbc⟩
        · intro t ht htx
          have hble : bc ≤ counts sw.index := le_of_not_lt hlt
          rcases List.mem_cons.mp ht with rfl | ht2
          · rcases IH1 with he | ⟨b, hb, hbm, hbx, hbc⟩
            · refine ⟨b0, he, ?_⟩
              rcases lt_or_eq_of_le hble with hcase | hcase
              · exact Or.inl (by omega)
              · refine Or.inr ⟨by omega, ?_⟩
                exact le_of_lt (h3 b0 rfl t (by simp))
            · exact ⟨b, hb, Or.inl (lt_of_lt_of_le hbc hble)⟩
          · exact IH2 t ht2 htx

theorem pickLeastLoaded_spec (counts : Nat → Nat) (excl : List Str)
    (sessions : List SessionS)
    (hpair : sessions.Pairwise (fun a b => a.index < b.index))
    (hsmall : ∀ sw ∈ sessions, counts sw.index < BIGCOUNT) :
    ((∀ sw ∈ sessions, ¬(sw.online = true ∧ lowerStr (displayName sw) ∉ excl)) →
        pickLeastLoaded counts excl sessions = none)
    ∧ (∀ b, pickLeastLoaded counts excl sessions = some b →
        b ∈ sessions ∧ b.online = true ∧ lowerStr (displayName b) ∉ excl)
    ∧ (∀ t ∈ sessions, t.online = true → lowerStr (displayName t) ∉ excl →
        ∃ b, pickLeastLoaded counts excl sessions = some b
          ∧ (counts b.index < counts t.index
             ∨ (counts b.index = counts t.index ∧ b.index ≤ t.index))) := by
  have hsub := List.filter_sublist (p := (·.online)) (l := sessions)
  have hpairf := hpair.sublist hsub
  have hspec := pickGo_spec counts excl (sessions.filter (·.online)) none BIGCOUNT
    (fun b hb => by cases hb) (fun _ => rfl) (fun b hb => by cases hb) hpairf
    (fun s hs hsx => hsmall s (hsub.mem hs))
  obtain ⟨hs1, hs2⟩ := hspec
  refine ⟨?_, ?_, ?_⟩
  · intro hnone
    rcases hs1 with he | ⟨b, hb, hbm, hbx, _⟩
    · exact he
    · exfalso
      have hbon : b.online = true := (List.mem_filter.mp hbm).2
      exact hnone b (hsub.mem hbm) ⟨hbon, hbx⟩
  · intro b hb
    unfold pickLeastLoaded at hb
    rcases hs1 with he | ⟨b', hb', hbm, hbx, _⟩
    · rw [hb] at he
      cases he
    · rw [hb] at hb'
      injection hb' with hbb
      rw [hbb]
      exact ⟨hsub.mem hbm, (List.mem_filter.mp hbm).2, hbx⟩
  · intro t ht hton htx
    exact hs2 t (List.mem_filter.mpr ⟨ht, hton⟩) htx

/-! ### Helper lemmas: association lists -/

theorem lookupA_setA_self {α : Type} (m : List (Str × α)) (k : Str) (v : α) :
    lookupA (setA m k v) k = some v := by
  induction m with
  | nil => simp [setA, lookupA]
  | cons p rest ih =>
    by_cases h : p.1 = k
    · simp [setA, h, lookupA]
    · simp [setA, h, lookupA, ih]

theorem lookupA_setA_ne {α : Type} (m : List (Str × α)) (k k' : Str) (v : α)
    (h : k ≠ k') : lookupA (setA m k v) k' = lookupA m k' := by
  induction m with
  | nil => simp [setA, lookupA, h]
  | cons p rest ih =>
    by_cases hp : p.1 = k
    · simp [setA, hp, lookupA, h]
    · simp only [setA, if_neg hp, lookupA]
      by_cases hp2 : p.1 = k'
      · simp [hp2]
      · simp [hp2, ih]

theorem length_setA_of_mem {α : Type} (m : List (Str × α)) (k : Str) (v : α)
    (h : (lookupA m k).isSome) : (setA m k v).length = m.length := by
  induction m with
  | nil => simp [lookupA] at h
  | cons p rest ih =>
    by_cases hp : p.1 = k
    · simp [setA, hp]
    · simp only [lookupA, if_neg hp] at h
      simp [setA, hp, ih h]

/-! ### Helper lemmas: recent-publish ring -/

theorem recordRing_head (item : RItem) (arr : List RItem) :
    (recordRing item arr).head? = some item := by
  simp [recordRing]

theorem recordRing_length (item : RItem) (arr : List RItem) :
    (recordRing item arr).length = min (arr.length + 1) 10 := by
  simp [recordRing, List.length_take]
  omega

theorem recordRing_tail (item : RItem) (arr : List RItem) :
    (recordRing item arr).tail = arr.take 9 := by
  simp [recordRing]

/-! ### Helper lemmas: hex digests -/

theorem wordHex8_length (w : Nat) : (wordHex8 w).length = 8 := by
  simp [wordHex8]

theorem sha1Hex_length (msg : List Nat) : (sha1Hex msg).length = 40 := by
  unfold sha1Hex
  simp [wordHex8_length]

theorem toHexChar_isHexLower (n : Nat) (h : n < 16) : isHexLower (toHexChar n) = true := by
  interval_cases n <;> decide

theorem wordHex8_hex (w : Nat) : ∀ c ∈ wordHex8 w, isHexLower c = true := by
  intro c hc
  simp only [wordHex8, List.mem_map] at hc
  obtain ⟨i, _, rfl⟩ := hc
  exact toHexChar_isHexLower _ (Nat.mod_lt _ (by omega))

theorem sha1Hex_hex (msg : List Nat) : ∀ c ∈ sha1Hex msg, isHexLower c = true := by
  intro c hc
  unfold sha1Hex at hc
  simp only [List.mem_append] at hc
  rcases hc with ((((h | h) | h) | h) | h) <;> exact wordHex8_hex _ c h

theorem bot_key_length (tok : Str) : (bot_key tok).length = 16 := by
  unfold bot_key
  rw [List.length_take, sha1Hex_length]
  omega

theorem bot_key_hex (tok : Str) : ∀ c ∈ bot_key tok, isHexLower c = true := by
  intro c hc
  unfold bot_key at hc
  exact sha1Hex_hex _ c (List.mem_of_mem_take hc)

theorem job_id_length (poll post postBy postSess botToken : Str) :
    (job_id poll post postBy postSess botToken).length = 16 := by
  unfold job_id
  rw [List.length_take, sha1Hex_length]
  omega

/-- C3 counterexample: with empty `text_strip`, untrimmed text is trimmed
before the separator is applied, and the caption is trimmed, contrary to
the claim's exact-concatenation reading; the third conjunct shows the
value the code actually produces. -/
theorem c3_counterexample :
    finalText " hi ".data [] "c".data ≠ " hi ".data ++ SEPARATOR ++ "c".data
    ∧ finalText "hi".data [] " c ".data ≠ "hi".data ++ SEPARATOR ++ " c ".data
    ∧ finalText " hi ".data [] "c".data = "hi".data ++ SEPARATOR ++ "c".data := by
  refine ⟨by decide, by decide, by decide⟩

theorem processEvent_mono (job : Job) (mid : Nat) (r : RepostResult) :
    job.lastOkId ≤ (processEvent job mid r).lastOkId := by
  unfold processEvent
  by_cases h1 : mid ≤ job.lastOkId
  · rw [if_pos h1]
  · rw [if_neg h1]
    by_cases h2 : r.ok
    · rw [if_pos h2]
      show job.lastOkId ≤ mid
      omega
    · rw [if_neg h2]

/-- C1: a job's `last_ok_id` never decreases (per processed message and
along any whole trace of processed messages); it strictly increases
exactly when the republish attempt returned `true` for a message or album
representative whose id exceeds the current cursor, in which case it
becomes that id; a `false` return leaves it unchanged. -/
theorem c1_cursor_monotone :
    (∀ (job : Job) (mid : Nat) (r : RepostResult),
      job.lastOkId ≤ (processEvent job mid r).lastOkId
      ∧ ((processEvent job mid r).lastOkId ≠ job.lastOkId ↔ (r.ok = true ∧ job.lastOkId < mid))
      ∧ (r.ok = false → (processEvent job mid r).lastOkId = job.lastOkId)
      ∧ (r.ok = true → job.lastOkId < mid → (processEvent job mid r).lastOkId = mid))
    ∧ (∀ (job : Job) (events : List (Nat × RepostResult)),
      job.lastOkId ≤ (processTrace job events).lastOkId) := by
  constructor
  · intro job mid r
    refine ⟨processEvent_mono job mid r, ?_, ?_, ?_⟩
    · unfold processEvent
      by_cases h1 : mid ≤ job.lastOkId
      · rw [if_pos h1]
        exact ⟨fun h => absurd rfl h, fun ⟨_, h2⟩ => by omega⟩
      · rw [if_neg h1]
        by_cases h2 : r.ok
        · rw [if_pos h2]
          refine ⟨fun _ => ⟨h2, by omega⟩, fun _ => ?_⟩
          show mid ≠ job.lastOkId
          omega
        · rw [if_neg h2]
          refine ⟨fun h => absurd rfl h, fun ⟨hok, _⟩ => ?_⟩
          rw [hok] at h2
          exact absurd rfl h2
    · intro hf
      unfold processEvent
      by_cases h1 : mid ≤ job.lastOkId
      · rw [if_pos h1]
      · rw [if_neg h1, hf]
        rfl
    · intro ht h1
      unfold processEvent
      rw [if_neg (by omega), ht]
      rfl
  · intro job events
    induction events generalizing job with
    | nil => exact le_refl _
    | cons e es ih =>
      exact le_trans (processEvent_mono job e.1 e.2) (ih _)

/-- C1 witness: a failed attempt leaves the cursor at 0; a successful
attempt at id 5 moves it to 5. -/
theorem c1_cursor_monotone_witness :
    (processEvent jobW 5 failR).lastOkId = jobW.lastOkId
    ∧ (processEvent jobW 5 okR).lastOkId = 5 :=
  ⟨(c1_cursor_monotone.1 jobW 5 failR).2.2.1 rfl,
   (c1_cursor_monotone.1 jobW 5 okR).2.2.2 rfl (by decide)⟩

/-- C8: on every successful republish exactly one entry is prepended to
the publishing identity's recent ring (the new ring is the new item
followed by the first nine old entries, so it is newest-first and holds
at most 10 entries), and the rings of all other identities are
untouched; this holds for both the per-session-file map and the
per-bot-fingerprint map. -/
theorem c8_recent_rings :
    (∀ (st : StateS) (sw : SessionS) (pollName postN link now : Str),
      lookupA (record_reup_session st sw pollName postN link now).recentBySession (sessKey sw)
        = some (RItem.mk link (norm_ch pollName) postN now
            :: ((lookupA st.recentBySession (sessKey sw)).getD []).take 9)
      ∧ (RItem.mk link (norm_ch pollName) postN now
            :: ((lookupA st.recentBySession (sessKey sw)).getD []).take 9).length ≤ 10
      ∧ (∀ k, k ≠ sessKey sw →
          lookupA (record_reup_session st sw pollName postN link now).recentBySession k
            = lookupA st.recentBySession k))
    ∧ (∀ (st : StateS) (tok pollName postN link now : Str),
      lookupA (record_reup_bot st tok pollName postN link now).recentByBot (bot_key tok)
        = some (RItem.mk link (norm_ch pollName) postN now
            :: ((lookupA st.recentByBot (bot_key tok)).getD []).take 9)
      ∧ (RItem.mk link (norm_ch pollName) postN now
            :: ((lookupA st.recentByBot (bot_key tok)).getD []).take 9).length ≤ 10
      ∧ (∀ k, k ≠ bot_key tok →
          lookupA (record_reup_bot st tok pollName postN link now).recentByBot k
            = lookupA st.recentByBot k)) := by
  constructor
  · intro st sw pollName postN link now
    refine ⟨?_, ?_, ?_⟩
    · show lookupA (updateRecent _ _ _) _ = _
      rw [updateRecent, lookupA_setA_self]
      rfl
    · simp only [List.length_cons, List.length_take]
      omega
    · intro k hk
      show lookupA (setA _ _ _) _ = _
      exact lookupA_setA_ne _ _ _ _ (Ne.symm hk)
  · intro st tok pollName postN link now
    refine ⟨?_, ?_, ?_⟩
    · show lookupA (updateRecent _ _ _) _ = _
      rw [updateRecent, lookupA_setA_self]
      rfl
    · simp only [List.length_cons, List.length_take]
      omega
    · intro k hk
      show lookupA (setA _ _ _) _ = _
      exact lookupA_setA_ne _ _ _ _ (Ne.symm hk)

/-- C8 witness: recording a publish for session `D` does not disturb the
(empty) ring of another key. -/
theorem c8_recent_rings_witness :
    lookupA (record_reup_session emptyState sessD "src".data "dst".data "L".data
      "T".data).recentBySession "other.session".data
      = lookupA emptyState.recentBySession "other.session".data :=
  (c8_recent_rings.1 emptyState sessD "src".data "dst".data "L".data "T".data).2.2
    "other.session".data (by decide)

theorem statusJobOut_congr (jid : Str) (j1 j2 : Job) (h : jobTokenEquiv j1 j2) :
    statusJobOut jid j1 = statusJobOut jid j2 := by
  obtain ⟨h1, h2, h3, h4, h5, h6, h7, h8, h9, h10, h11, h12, h13⟩ := h
  simp [statusJobOut, h2, h3, h4, h5, h6, h7, h8, h9, h10, h13]

theorem mapStatus_forallTwo :
    ∀ (l1 l2 : List (Str × Job)),
    List.Forall₂ (fun p q => p.1 = q.1 ∧ jobTokenEquiv p.2 q.2) l1 l2 →
    l1.map (fun pr => statusJobOut pr.1 pr.2) = l2.map (fun pr => statusJobOut pr.1 pr.2) := by
  intro l1 l2 h
  induction h with
  | nil => rfl
  | cons hpq _ ih =>
    simp only [List.map_cons]
    rw [ih, hpq.1, statusJobOut_congr _ _ _ hpq.2]

/-- C10: the `/status` rendering of a job carries only a 16-hex-character
SHA-1-derived `bot_key` fingerprint, never the bot token itself: for a
job with a token the rendered `bot_key` has length 16 and consists of
lowercase hex digits, and any two jobs (or whole states) that differ only
in bot-token values with equal fingerprints render identically. -/
theorem c10_status_hides_tokens :
    (∀ (jid : Str) (j : Job), j.botToken ≠ [] →
      (statusJobOut jid j).botKeyF.length = 16
      ∧ ∀ c ∈ (statusJobOut jid j).botKeyF, isHexLower c = true)
    ∧ (∀ (jid : Str) (j1 j2 : Job), jobTokenEquiv j1 j2 →
        statusJobOut jid j1 = statusJobOut jid j2)
    ∧ (∀ st1 st2 : StateS,
        st1.recentByBot = st2.recentByBot →
        List.Forall₂ (fun p q => p.1 = q.1 ∧ jobTokenEquiv p.2 q.2) st1.jobs st2.jobs →
        statusOut st1 = statusOut st2) := by
  refine ⟨?_, statusJobOut_congr, ?_⟩
  · intro jid j hj
    constructor
    · simp [statusJobOut, if_neg hj, bot_key_length]
    · intro c hc
      simp only [statusJobOut] at hc
      rw [if_neg hj] at hc
      exact bot_key_hex _ c hc
  · intro st1 st2 hb hj
    unfold statusOut
    rw [hb]
    exact congrArg (fun l => (l, st2.recentByBot.map (fun pr => (pr.1, pr.2.take 10))))
      (mapStatus_forallTwo _ _ hj)

/-- C10 witness: two jobs whose tokens differ only by surrounding
whitespace (hence share a fingerprint) render identically in `/status`. -/
theorem c10_status_hides_tokens_witness :
    statusJobOut [] jobT1 = statusJobOut [] jobT2 ∧ jobT1.botToken ≠ jobT2.botToken :=
  ⟨c10_status_hides_tokens.2.1 [] jobT1 jobT2 (by unfold jobTokenEquiv; decide), by decide⟩

/-- C2 counterexample: for the spec's own album (ids 2001/2002/2003 with
texts `""`/`"longest"`/`"x"`) the primary is 2002 but a successful
republish advances the cursor to 2003, not 2002; and for an album whose
texts have equal length the code sends the lowest-id member's text, not
the highest-id member's. -/
theorem c2_counterexample :
    (albumPrimary (sortMsgs albumA)).map (fun m => m.id) = some 2002
    ∧ (processAlbum jobW albumA okR).1.lastOkId = 2003
    ∧ (2003 : Nat) ≠ 2002
    ∧ (processAlbum jobW albumB okR).2 = ["aa".data]
    ∧ (albumPrimary (sortMsgs albumB)).map (fun m => m.id) = some 10
    ∧ "aa".data ≠ "bb".data := by
  refine ⟨by decide, by decide, by decide, by decide, by decide, by decide⟩

/-- C2 (amended): for a non-empty album (strictly id-sorted) and a job,
if the album's highest member id is not above the cursor nothing is sent
and the job is unchanged; otherwise exactly one send is performed, whose
content is the text of the primary member — the member with the longest
text, ties broken by the earliest member in ascending-id order (the
lowest id) — and on success the cursor advances to the album's highest
member id (not the primary's id); on failure it is unchanged. -/
theorem c2_album_policy :
    ∀ (job : Job) (album : List Msg) (r : RepostResult),
    album ≠ [] →
    album.Pairwise (fun a b => a.id < b.id) →
    ∃ rep, (sortMsgs album).getLast? = some rep
      ∧ (∀ m ∈ album, m.id ≤ rep.id)
      ∧ (rep.id ≤ job.lastOkId → processAlbum job album r = (job, []))
      ∧ (job.lastOkId < rep.id →
          ∃ prim l1 l2, albumPrimary (sortMsgs album) = some prim
            ∧ album = l1 ++ prim :: l2
            ∧ (∀ x ∈ l1, x.text.length < prim.text.length)
            ∧ (∀ x ∈ l2, x.text.length ≤ prim.text.length)
            ∧ (processAlbum job album r).2 = [prim.text]
            ∧ (r.ok = true → (processAlbum job album r).1.lastOkId = rep.id)
            ∧ (r.ok = false → (processAlbum job album r).1.lastOkId = job.lastOkId)) := by
  intro job album r hne hsort
  have hs : sortMsgs album = album := sortMsgs_eq_of_sorted album hsort
  rw [hs]
  obtain ⟨rep, hrep⟩ : ∃ rep, album.getLast? = some rep := by
    obtain ⟨init, b, hb⟩ := (List.eq_nil_or_concat album).resolve_left hne
    rw [List.concat_eq_append] at hb
    exact ⟨b, by rw [hb]; exact List.getLast?_concat _⟩
  refine ⟨rep, hrep, getLast?_max_of_sorted album hsort rep hrep, ?_, ?_⟩
  · intro hskip
    simp only [processAlbum, hs, hrep]
    rw [if_pos hskip]
  · intro hadv
    obtain ⟨prim, hprim⟩ : ∃ prim, albumPrimary album = some prim := by
      cases album with
      | nil => exact absurd rfl hne
      | cons m rest => exact ⟨_, rfl⟩
    obtain ⟨l1, l2, hdecomp, hlt, hle⟩ := albumPrimary_first_max album prim hprim
    refine ⟨prim, l1, l2, hprim, hdecomp, hlt, hle, ?_, ?_, ?_⟩
    · simp only [processAlbum, hs, hrep, hprim]
      rw [if_neg (by omega)]
    · intro hok
      simp only [processAlbum, hs, hrep, hprim]
      rw [if_neg (by omega)]
      simp only [processEvent, if_neg (show ¬ rep.id ≤ job.lastOkId by omega), hok]
      rfl
    · intro hfail
      simp only [processAlbum, hs, hrep, hprim]
      rw [if_neg (by omega)]
      simp only [processEvent, if_neg (show ¬ rep.id ≤ job.lastOkId by omega), hfail]
      rfl

/-- C2 witness: the amended album policy instantiated at the
2001/2002/2003 album with a successful send. -/
theorem c2_album_policy_witness :
    ∃ rep, (sortMsgs albumA).getLast? = some rep
      ∧ (∀ m ∈ albumA, m.id ≤ rep.id)
      ∧ (rep.id ≤ jobW.lastOkId → processAlbum jobW albumA okR = (jobW, []))
      ∧ (jobW.lastOkId < rep.id →
          ∃ prim l1 l2, albumPrimary (sortMsgs albumA) = some prim
            ∧ albumA = l1 ++ prim :: l2
            ∧ (∀ x ∈ l1, x.text.length < prim.text.length)
            ∧ (∀ x ∈ l2, x.text.length ≤ prim.text.length)
            ∧ (processAlbum jobW albumA okR).2 = [prim.text]
            ∧ (okR.ok = true → (processAlbum jobW albumA okR).1.lastOkId = rep.id)
            ∧ (okR.ok = false → (processAlbum jobW albumA okR).1.lastOkId = jobW.lastOkId)) :=
  c2_album_policy jobW albumA okR (by decide) (by decide)

/-- C6 (amended): for a user-mode job whose bound post session is found
but offline, the pre-send gate hard-fails (the republish returns
`false`), sets `paused_reason` to `"post_session_die"`, never proceeds
via any session (no substitute is ever picked), and emits an alert
exactly when the integer wall-clock second is a multiple of 30 — not at
most once per 30 seconds. -/
theorem c6_post_session_die :
    ∀ (sessions : List SessionS) (timeMs : Nat) (job : Job) (sw : SessionS),
    job.postChanel ≠ [] → job.postSeasion ≠ [] →
    findByName sessions job.postSeasion = some sw → sw.online = false →
    repostUserGate sessions timeMs job
      = RepostGate.hardFail
          { job with lastError := dieMsg sw, pausedReason := "post_session_die".data }
          (decide (timeMs / 1000 % 30 = 0))
    ∧ ∀ t, repostUserGate sessions timeMs job ≠ RepostGate.proceed t := by
  intro sessions timeMs job sw h1 h2 hfind hoff
  have hgate : repostUserGate sessions timeMs job
      = RepostGate.hardFail
          { job with lastError := dieMsg sw, pausedReason := "post_session_die".data }
          (decide (timeMs / 1000 % 30 = 0)) := by
    simp only [repostUserGate, if_neg h1, if_neg h2, hfind, hoff]
    simp
  refine ⟨hgate, fun t ht => ?_⟩
  rw [hgate] at ht
  exact RepostGate.noConfusion ht

/-- C6 witness: the dead-post-session gate at 30.1 s wall clock for a job
bound to the dead session `D`. -/
theorem c6_post_session_die_witness :
    repostUserGate [sessD] 30100 jobD
      = RepostGate.hardFail
          { jobD with lastError := dieMsg sessD, pausedReason := "post_session_die".data }
          (decide (30100 / 1000 % 30 = 0))
    ∧ ∀ t, repostUserGate [sessD] 30100 jobD ≠ RepostGate.proceed t :=
  c6_post_session_die [sessD] 30100 jobD sessD (by decide) (by decide) (by decide) (by decide)

/-- C6 counterexample: two failing attempts 0.4 s apart (at 30.1 s and
30.5 s wall clock) each emit an alert, refuting "at most once per 30
seconds of wall-clock time". -/
theorem c6_throttle_counterexample :
    repostUserGate [sessD] 30100 jobD
      = RepostGate.hardFail
          { jobD with lastError := dieMsg sessD, pausedReason := "post_session_die".data } true
    ∧ repostUserGate [sessD] 30500 jobD
      = RepostGate.hardFail
          { jobD with lastError := dieMsg sessD, pausedReason := "post_session_die".data } true
    ∧ 30500 - 30100 < 30000 := by
  refine ⟨by decide, by decide, by decide⟩

/-- C7: when a poller's bound session is offline or missing, the failover
controller rebinds it to the least-loaded online session outside the
post-role set (ties broken by lowest poller-count, then lowest session
index), resets `last_error` and records the failover timestamp; when no
eligible candidate exists, the poller keeps its binding and only
`last_error` is set. -/
theorem c7_failover_rebind :
    ∀ (sessions : List SessionS) (now : Str) (st : StateS) (pollName : Str) (meta : Poller),
    lookupA st.pollers pollName = some meta →
    (((if pyStrip meta.pollSessionName = [] then none
       else findByName sessions (pyStrip meta.pollSessionName)).map (·.online)).getD false)
      = false →
    sessions.Pairwise (fun a b => a.index < b.index) →
    (∀ sw ∈ sessions, pollLoadCounts st sw.index < BIGCOUNT) →
    ((∃ t ∈ sessions, t.online = true ∧ lowerStr (displayName t) ∉ (computeRoles st).2) →
      ∃ dst, dst ∈ sessions ∧ dst.online = true
        ∧ lowerStr (displayName dst) ∉ (computeRoles st).2
        ∧ (∀ t ∈ sessions, t.online = true → lowerStr (displayName t) ∉ (computeRoles st).2 →
            (pollLoadCounts st dst.index < pollLoadCounts st t.index
             ∨ (pollLoadCounts st dst.index = pollLoadCounts st t.index ∧ dst.index ≤ t.index)))
        ∧ lookupA (failoverPollerIfNeeded sessions now st pollName).pollers pollName
            = some { meta with pollSessionName := displayName dst, sessionIndex := dst.index,
                               lastError := [], lastFailoverTs := some now })
    ∧ ((∀ t ∈ sessions, ¬(t.online = true ∧ lowerStr (displayName t) ∉ (computeRoles st).2)) →
        lookupA (failoverPollerIfNeeded sessions now st pollName).pollers pollName
          = some { meta with lastError := "poller has no available poll session".data }) := by
  intro sessions now st pollName meta hmeta hdead hpair hsmall
  obtain ⟨hs1, hs2, hs3⟩ :=
    pickLeastLoaded_spec (pollLoadCounts st) (computeRoles st).2 sessions hpair hsmall
  constructor
  · rintro ⟨t, htm, hton, htx⟩
    obtain ⟨b, hpick, _⟩ := hs3 t htm hton htx
    obtain ⟨hbm, hbon, hbx⟩ := hs2 b hpick
    refine ⟨b, hbm, hbon, hbx, ?_, ?_⟩
    · intro t2 ht2 hton2 htx2
      obtain ⟨b', hpick', hopt'⟩ := hs3 t2 ht2 hton2 htx2
      rw [hpick] at hpick'
      injection hpick' with hbb
      rw [hbb]
      exact hopt'
    · simp only [failoverPollerIfNeeded, hmeta]
      rw [if_neg (by rw [hdead]; simp)]
      simp only [hpick]
      rw [lookupA_setA_self]
  · intro hnone
    have hpick := hs1 (fun sw hsw hc => hnone sw hsw hc)
    simp only [failoverPollerIfNeeded, hmeta]
    rw [if_neg (by rw [hdead]; simp)]
    simp only [hpick]
    rw [lookupA_setA_self]

/-- C7 witness: a poller bound to the dead session `A` is rebound to `B`
(online, not post-role, lowest index among the least loaded). -/
theorem c7_failover_rebind_witness :
    ((∃ t ∈ sessionsW, t.online = true ∧ lowerStr (displayName t) ∉ (computeRoles stW).2) →
      ∃ dst, dst ∈ sessionsW ∧ dst.online = true
        ∧ lowerStr (displayName dst) ∉ (computeRoles stW).2
        ∧ (∀ t ∈ sessionsW, t.online = true → lowerStr (displayName t) ∉ (computeRoles stW).2 →
            (pollLoadCounts stW dst.index < pollLoadCounts stW t.index
             ∨ (pollLoadCounts stW dst.index = pollLoadCounts stW t.index ∧ dst.index ≤ t.index)))
        ∧ lookupA (failoverPollerIfNeeded sessionsW "T2".data stW "src".data).pollers "src".data
            = some { metaW with pollSessionName := displayName dst, sessionIndex := dst.index,
                                lastError := [], lastFailoverTs := some "T2".data })
    ∧ ((∀ t ∈ sessionsW, ¬(t.online = true ∧ lowerStr (displayName t) ∉ (computeRoles stW).2)) →
        lookupA (failoverPollerIfNeeded sessionsW "T2".data stW "src".data).pollers "src".data
          = some { metaW with lastError := "poller has no available poll session".data }) :=
  c7_failover_rebind sessionsW "T2".data stW "src".data metaW
    (by decide) (by decide) (by decide) (by decide)

/-- C4 (code behavior at the failing input): with minimum cursor 0 and a
batch containing an album with group id 5 (member ids 1, 2) and an album
with group id 3 (member ids 3, 4), the poll pipeline processes the gid-3
album (smallest member id 3) before the gid-5 album (smallest member
id 1): albums are ordered by group id, not by smallest member id as the
claim (and the code's own comment) states. -/
theorem c4_album_order_code_behavior :
    processUnits (collectBatch batchC4 (minCursorOf [jobW]) 50)
      = [[⟨3, some 3, "c".data⟩, ⟨4, some 3, "d".data⟩],
         [⟨1, some 5, "a".data⟩, ⟨2, some 5, "b".data⟩]]
    ∧ (processUnits (collectBatch batchC4 (minCursorOf [jobW]) 50)).map
        (fun u => (u.map (fun m => m.id)).headD 0) = [3, 1]
    ∧ ¬ ((3 : Nat) ≤ 1) := by
  refine ⟨by decide, by decide, by decide⟩

/-- C5 (code behavior at the failing input): an `/add` request naming the
same online session `X` both as the poll session and as the post session
is accepted (no 409 is raised), and the resulting stored state has `x`
in both the poll-role set and the post-role set — the mutation the spec
says must be rejected. -/
theorem c5_role_conflict_code_behavior :
    exceptIsOk (addHandler envC5 emptyState payloadC5).2 = true
    ∧ "x".data ∈ (computeRoles (addHandler envC5 emptyState payloadC5).1).1
    ∧ "x".data ∈ (computeRoles (addHandler envC5 emptyState payloadC5).1).2 := by
  refine ⟨by decide, by decide, by decide⟩

/-! ### Helper lemmas: the `/add` handler preserves jobs until the upsert -/

theorem failover_jobs (sessions : List SessionS) (now : Str) (st : StateS) (pollName : Str) :
    (failoverPollerIfNeeded sessions now st pollName).jobs = st.jobs := by
  unfold failoverPollerIfNeeded
  split
  · rfl
  · dsimp only
    split
    · split
      · rfl
      · split <;> rfl
    · split
      · rfl
      · split <;> rfl

theorem pollStepOf_jobs (env : AddEnv) (st : StateS) (pollName plName : Str) :
    (pollStepOf env st pollName plName).1.jobs = st.jobs := by
  unfold pollStepOf
  split
  · rfl
  · exact failover_jobs _ _ _ _

theorem resolvePollSession_jobs (env : AddEnv) (st : StateS) (postRoles : List Str)
    (pollReq pollName : Str) :
    (resolvePollSession env st postRoles pollReq pollName).1.jobs = st.jobs := by
  unfold resolvePollSession
  split
  · split
    · rfl
    · split
      · rfl
      · split <;> rfl
  · split
    · split
      · dsimp only
        split
        · split <;> exact pollStepOf_jobs _ _ _ _
        · exact pollStepOf_jobs _ _ _ _
      · split <;> rfl
    · split <;> rfl

/-- C9: the job identifier is a pure function of the normalised request
tuple (normalised source and destination channel, lowercased post mode,
lowercased post-session base name, bot-token fingerprint): requests with
equal normalised tuples get the same 16-character job id, and an `/add`
that succeeds while a job with that id already exists keeps the job
count unchanged and reuses the existing job's cursor. -/
theorem addFinish_spec (env : AddEnv) (st1 : StateS) (p : AddPayloadS)
    (roles : List Str × List Str) (n : Str) (i : Nat) (old : Job)
    (hok : exceptIsOk (addFinish env st1 p roles n i).2 = true)
    (hold : lookupA st1.jobs (jobIdOfPayload p) = some old) :
    (addFinish env st1 p roles n i).1.jobs.length = st1.jobs.length
    ∧ (lookupA (addFinish env st1 p roles n i).1.jobs (jobIdOfPayload p)).map
        (fun j => j.lastOkId) = some old.lastOkId := by
  revert hok
  unfold addFinish
  dsimp only
  repeat' split
  all_goals intro hok
  all_goals simp only [exceptIsOk] at hok
  all_goals try exact absurd hok Bool.false_ne_true
  all_goals rename_i heqjob
  all_goals rw [hold] at heqjob
  any_goals exact Option.noConfusion heqjob
  all_goals injection heqjob with ho
  all_goals refine ⟨length_setA_of_mem _ _ _ (by rw [hold]; rfl), ?_⟩
  all_goals rw [lookupA_setA_self]
  all_goals simp only [Option.map_some']
  all_goals rw [← ho]

theorem addHandler_eq_resolve (env : AddEnv) (st : StateS) (p : AddPayloadS)
    (hdel : isDeleteAll p = false) (hn1 : pollNameOf p ≠ []) (hn2 : postNameOf p ≠ []) :
    addHandler env st p =
      match resolvePollSession env st (computeRoles st).2
          (norm_session_name (orFirst p.pollSeasion p.seasion)) (pollNameOf p) with
      | (st1, .error e) => (st1, .error e)
      | (st1, .ok (pollSessionName, pollSessionIndex)) =>
        addFinish env st1 p (computeRoles st) pollSessionName pollSessionIndex := by
  unfold addHandler
  rw [if_neg hn1, if_neg (by simp [hdel]), if_neg hn2]

/-- C9: the job identifier is a pure function of the normalised request
tuple (normalised source and destination channel, lowercased post mode,
lowercased post-session base name, bot-token fingerprint): requests with
equal normalised tuples get the same 16-character job id, and an `/add`
that succeeds while a job with that id already exists keeps the job
count unchanged and reuses the existing job's cursor. -/
theorem c9_job_identity :
    (∀ p1 p2 : AddPayloadS, normTuple p1 = normTuple p2 →
      jobIdOfPayload p1 = jobIdOfPayload p2)
    ∧ (∀ p : AddPayloadS, (jobIdOfPayload p).length = 16)
    ∧ (∀ (env : AddEnv) (st : StateS) (p : AddPayloadS) (old : Job),
        isDeleteAll p = false →
        exceptIsOk (addHandler env st p).2 = true →
        lookupA st.jobs (jobIdOfPayload p) = some old →
        (addHandler env st p).1.jobs.length = st.jobs.length
        ∧ (lookupA ((addHandler env st p).1.jobs) (jobIdOfPayload p)).map
            (fun j => j.lastOkId) = some old.lastOkId) := by
  refine ⟨?_, ?_, ?_⟩
  · intro p1 p2 h
    have h1 := congrArg (fun t => t.1) h
    have h2 := congrArg (fun t => t.2.1) h
    have h3 := congrArg (fun t => t.2.2.1) h
    have h4 := congrArg (fun t => t.2.2.2.1) h
    have h5 := congrArg (fun t => t.2.2.2.2) h
    simp only [normTuple] at h1 h2 h3 h4 h5
    unfold jobIdOfPayload job_id jobIdRawStr
    rw [h1, h2, h3, h4, h5]
  · intro p
    unfold jobIdOfPayload
    exact job_id_length _ _ _ _ _
  · intro env st p old hdel hok hold
    have hn1 : pollNameOf p ≠ [] := by
      intro h
      unfold addHandler at hok
      rw [if_pos h] at hok
      exact absurd hok (by simp [exceptIsOk])
    have hn2 : postNameOf p ≠ [] := by
      intro h
      unfold addHandler at hok
      rw [if_neg hn1, if_neg (by simp [hdel]), if_pos h] at hok
      exact absurd hok (by simp [exceptIsOk])
    have hA := addHandler_eq_resolve env st p hdel hn1 hn2
    rw [hA] at hok ⊢
    generalize hres : resolvePollSession env st (computeRoles st).2
        (norm_session_name (orFirst p.pollSeasion p.seasion)) (pollNameOf p) = res at hok ⊢
    obtain ⟨st1, r⟩ := res
    have hjobs1 : st1.jobs = st.jobs := by
      have h2 := resolvePollSession_jobs env st (computeRoles st).2
        (norm_session_name (orFirst p.pollSeasion p.seasion)) (pollNameOf p)
      rw [hres] at h2
      exact h2
    cases r with
    | error e =>
      simp only [exceptIsOk] at hok
      exact absurd hok Bool.false_ne_true
    | ok ni =>
      rcases ni with ⟨n, i⟩
      dsimp only at hok ⊢
      obtain ⟨hl, hv⟩ := addFinish_spec env st1 p (computeRoles st) n i old hok
        (by rw [hjobs1]; exact hold)
      exact ⟨by rw [hl, hjobs1], hv⟩

/-- C9 witness: a bot-mode `/add` repeated over an existing job with
cursor 123 keeps one job and the cursor 123; the variant request
`" @src "` normalises to the same tuple and the same id. -/
theorem c9_job_identity_witness :
    jobIdOfPayload payloadC9b = jobIdOfPayload payloadC9
    ∧ (jobIdOfPayload payloadC9).length = 16
    ∧ ((addHandler envC9 stC9 payloadC9).1.jobs.length = stC9.jobs.length
       ∧ (lookupA ((addHandler envC9 stC9 payloadC9).1.jobs) (jobIdOfPayload payloadC9)).map
           (fun j => j.lastOkId) = some oldJobC9.lastOkId) :=
  ⟨c9_job_identity.1 payloadC9b payloadC9 (by decide),
   c9_job_identity.2.1 payloadC9,
   c9_job_identity.2.2 envC9 stC9 payloadC9 oldJobC9 (by decide) (by decide)
     (by simp [stC9, lookupA])⟩
